import Mathlib

/-!
Verification of node-nstg (Telegram Recipient Language evaluator and telegram
job dispatcher) against its natural-language specification.

The TypeScript sources `src/trl.ts` and `src/api.ts` are shallowly embedded:
strings are `List Char` / `String`, promises become explicit `Except` results
threaded sequentially (the code chains every promise, and `Promise.all` joins
an array of independent per-id lookups in array order), and the stateful
telegram dispatcher becomes a labelled transition system on an explicit state
record.  JavaScript peculiarities that the code relies on are modelled
bit-for-bit: `String.replace` with a string pattern replaces only the first
occurrence, `indexOf` returns -1 (truthy!) when absent and 0 (falsy!) at the
start, `"".split(",")` is `[""]`, and `substring` swaps its endpoints.
-/

namespace Nstg

/-! ## JavaScript string primitives (trl.ts relies on their exact semantics) -/

/-- JavaScript whitespace for `trim` (the ASCII part, which is all the
grammar's callers use). -/
def jsWs (c : Char) : Bool :=
  c = ' ' || c = '\t' || c = '\n' || c = '\r' || c = '\x0b' || c = '\x0c'

/-- Drop trailing characters satisfying `p`. -/
def dropEndWhile (p : Char → Bool) (s : List Char) : List Char :=
  (s.reverse.dropWhile p).reverse

/-- `String.prototype.trim`. -/
def jsTrim (s : List Char) : List Char :=
  dropEndWhile jsWs (s.dropWhile jsWs)

/-- Is `pat` a prefix of `s`? -/
def startsWithL (pat s : List Char) : Bool :=
  match pat, s with
  | [], _ => true
  | _ :: _, [] => false
  | p :: ps, c :: cs => p = c && startsWithL ps cs

/-- `String.prototype.indexOf`: index of the first occurrence of `pat` in `s`,
`none` standing for JavaScript's `-1`.  An empty pattern matches at 0. -/
def jsIndexOf (s pat : List Char) : Option Nat :=
  go s 0
where
  go : List Char → Nat → Option Nat
  | t, i =>
    if startsWithL pat t then some i
    else match t with
      | [] => none
      | _ :: rest => go rest (i + 1)

/-- `String.prototype.split` with a one-character separator: `""` splits to
`[""]`, and empty pieces are kept. -/
def jsSplit (sep : Char) (s : List Char) : List (List Char) :=
  match s with
  | [] => [[]]
  | c :: rest =>
    let r := jsSplit sep rest
    if c = sep then [] :: r
    else match r with
      | [] => [[c]]
      | piece :: more => (c :: piece) :: more

/-- `String.prototype.substring(a, b)`: both endpoints are clamped to
`[0, length]` and swapped when `a > b`. -/
def jsSubstring (s : List Char) (a b : Int) : List Char :=
  let n : Int := s.length
  let a' := (max 0 (min a n)).toNat
  let b' := (max 0 (min b n)).toNat
  let lo := min a' b'
  let hi := max a' b'
  (s.take hi).drop lo

/-- `String.prototype.replace(pat, rep)` with a string pattern: replaces only
the FIRST occurrence (this first-occurrence-only semantics is load-bearing for
`toId` below). -/
def jsReplaceFirst (s pat rep : List Char) : List Char :=
  match jsIndexOf s pat with
  | none => s
  | some i => s.take i ++ rep ++ s.drop (i + pat.length)

/-- `parseInt(s)` restricted to decimal: skip leading whitespace, optional
sign, then decimal digits; `none` is `NaN` (no leading digit). -/
def jsParseInt (s : List Char) : Option Int :=
  let t := s.dropWhile jsWs
  let (neg, t) :=
    match t with
    | '-' :: r => (true, r)
    | '+' :: r => (false, r)
    | _ => (false, t)
  let digits := t.takeWhile Char.isDigit
  if digits.isEmpty then none
  else
    let v : Nat := digits.foldl (fun acc c => acc * 10 + (c.toNat - '0'.toNat)) 0
    some (if neg then -(v : Int) else (v : Int))

/-- `parseFloat(s)` restricted to decimal `[sign]digits[.digits]` (the only
shapes the census bounds ever take); `none` is `NaN`. -/
def jsParseFloat (s : List Char) : Option ℚ :=
  let t := s.dropWhile jsWs
  let (neg, t) :=
    match t with
    | '-' :: r => (true, r)
    | '+' :: r => (false, r)
    | _ => (false, t)
  let intDigits := t.takeWhile Char.isDigit
  let rest := t.dropWhile Char.isDigit
  let fracDigits :=
    match rest with
    | '.' :: r => r.takeWhile Char.isDigit
    | _ => []
  if intDigits.isEmpty && fracDigits.isEmpty then none
  else
    let iv : Nat := intDigits.foldl (fun acc c => acc * 10 + (c.toNat - '0'.toNat)) 0
    let fv : Nat := fracDigits.foldl (fun acc c => acc * 10 + (c.toNat - '0'.toNat)) 0
    let q : ℚ := (iv : ℚ) + (fv : ℚ) / ((10 : ℚ) ^ fracDigits.length)
    some (if neg then -q else q)

/-- ASCII `toLowerCase`. -/
def jsToLower (s : List Char) : List Char :=
  s.map Char.toLower

/-- `toId` (trl.ts): `nation.replace("_", " ").trim().toLowerCase().replace(" ", "_")`.
Each `replace` rewrites only the first occurrence. -/
def toId (nation : String) : String :=
  ⟨jsReplaceFirst
    (jsToLower (jsTrim (jsReplaceFirst nation.data ['_'] [' '])))
    [' '] ['_']⟩

/-! ## TRL data model (trl.ts) -/

/-- The action of a recipient command (`Action` enum in trl.ts). -/
inductive Action where
  | add
  | remove
  | limit
deriving DecidableEq

/-- A recipient primitive: a category name with raw arguments. -/
structure RecipientPrimitive where
  category : String
  args : List String
deriving DecidableEq

/-- A recipient command.  The TypeScript field
`recipients : RecipientPrimitive | RecipientCommand[]` is the union of the two
constructors; `position` is the 1-based diagnostic path. -/
inductive RecipientCommand where
  | prim (action : Action) (primitive : RecipientPrimitive) (position : List Nat)
  | group (action : Action) (commands : List RecipientCommand) (position : List Nat)

/-- A `ParseError` (message plus position path). -/
structure ParseError where
  message : String
  position : List Nat
deriving DecidableEq

/-! ## Parser (trl.ts `parseTrl` / `parseGroup` / `parseCommand` /
`parsePrimitive`).

The JS parser mutates a cursor `cxt.s`; each Lean function takes the remaining
input and returns the result with the rest of the input.  The JS loop in
`parseGroup` terminates because every successful `parseCommand` consumes at
least the `';'`; Lean gets the same bound through a fuel parameter that the
entry point sets larger than the input length, so fuel exhaustion (a dedicated
error) is unreachable. -/

/-- The category alternatives of the `^(nations|regions|tags|wa|new|refounded|census|categories)`
regex, in alternation order. -/
def categoryKeywords : List String :=
  ["nations", "regions", "tags", "wa", "new", "refounded", "census", "categories"]

/-- `parsePrimitive`: category keyword, `[`, comma-separated trimmed args up
to `]`, plus the per-category arity checks. -/
def parsePrimitive (s : List Char) (position : List Nat) :
    Except ParseError (RecipientPrimitive × List Char) := do
  let s := jsTrim s
  let category ←
    match categoryKeywords.find? (fun k => startsWithL k.data s) with
    | some c => pure c
    | none => throw ⟨"Unrecognized category name", position⟩
  let s := s.drop category.length
  let s := jsTrim s
  if s.head? ≠ some '[' then
    throw ⟨"Expected '[' character", position⟩
  let s := s.drop 1
  match jsIndexOf s [']'] with
  | none =>
    throw ⟨"List of arguments must be terminated by ']' character", position⟩
  | some idx =>
    let args : List String := (jsSplit ',' (s.take idx)).map (fun a => ⟨jsTrim a⟩)
    if category = "wa" &&
        (args.length ≠ 1 ||
          ((args.headD "") ≠ "members" && (args.headD "") ≠ "delegates")) then
      throw ⟨"Argument for 'wa' not 'members' or 'delegates'", position⟩
    if category = "new" &&
        (args.length ≠ 1 || (jsParseInt (args.headD "").data).isNone) then
      throw ⟨"Argument for 'new' not a number", position⟩
    if category = "refounded" &&
        (args.length ≠ 1 || (jsParseInt (args.headD "").data).isNone) then
      throw ⟨"Argument for 'new' not a number", position⟩
    if category = "census" &&
        (args.length ≠ 3 ||
          (jsParseInt (args.getD 0 "").data).isNone ||
          (jsParseInt (args.getD 1 "").data).isNone ||
          (jsParseInt (args.getD 2 "").data).isNone) then
      throw ⟨"Arguments for 'census' not three integers", position⟩
    let s := s.drop (idx + 1)
    pure (⟨category, args⟩, s)

mutual

/-- `parseGroup`: `'('`, one or more commands, `')'`. -/
def parseGroup (fuel : Nat) (s : List Char) (position : List Nat) :
    Except ParseError (List RecipientCommand × List Char) :=
  match fuel with
  | 0 => throw ⟨"out of fuel (unreachable: commands always consume input)", position⟩
  | fuel + 1 => do
    let s := jsTrim s
    if s.head? ≠ some '(' then
      throw ⟨"Expected '(' character", position⟩
    let s := s.drop 1
    let s := jsTrim s
    let (commands, s) ← parseGroupLoop fuel s 1 [] position
    let s := s.drop 1
    let s := jsTrim s
    if commands.length = 0 then
      throw ⟨"Group must contain at least one command", position⟩
    pure (commands, s)
termination_by structural fuel

/-- The `for` loop of `parseGroup`: parse commands until the cursor sees `')'`
(which is left for the caller to consume). -/
def parseGroupLoop (fuel : Nat) (s : List Char) (i : Nat)
    (acc : List RecipientCommand) (position : List Nat) :
    Except ParseError (List RecipientCommand × List Char) :=
  match fuel with
  | 0 => throw ⟨"out of fuel (unreachable: commands always consume input)", position⟩
  | fuel + 1 =>
    if s.head? = some ')' then pure (acc, s)
    else do
      let (c, s) ← parseCommand fuel s (position ++ [i])
      parseGroupLoop fuel (jsTrim s) (i + 1) (acc ++ [c]) position
termination_by structural fuel

/-- `parseCommand`: optional action character, then a group or a primitive,
then a mandatory `';'`. -/
def parseCommand (fuel : Nat) (s : List Char) (position : List Nat) :
    Except ParseError (RecipientCommand × List Char) :=
  match fuel with
  | 0 => throw ⟨"out of fuel (unreachable: commands always consume input)", position⟩
  | fuel + 1 => do
    let s := jsTrim s
    let (action, s) : Action × List Char :=
      match s.head? with
      | some '+' => (.add, s.drop 1)
      | some '-' => (.remove, s.drop 1)
      | some '/' => (.limit, s.drop 1)
      | _ => (.add, s)
    let s := jsTrim s
    let (command, s) ←
      if s.head? = some '(' then do
        let (cmds, s) ← parseGroup fuel s position
        pure (RecipientCommand.group action cmds position, s)
      else do
        let (p, s) ← parsePrimitive s position
        pure (RecipientCommand.prim action p position, s)
    let s := jsTrim s
    if s.head? ≠ some ';' then
      throw ⟨"Expected ';' character", position⟩
    pure (command, s.drop 1)
termination_by structural fuel

end

/-- `parseTrl`: wrap the trimmed input in parentheses and parse it as a group. -/
def parseTrl (trl : String) : Except ParseError (List RecipientCommand) :=
  let s : List Char := '(' :: (jsTrim trl.data ++ [')'])
  (parseGroup (3 * s.length + 9) s []).map Prod.fst

/-- A first-order view of a parsed primitive command, used to state parser
facts (the nested inductive `RecipientCommand` derives no decidable equality). -/
structure PrimView where
  action : Action
  category : String
  args : List String
  position : List Nat
deriving DecidableEq

/-- View a parsed command as a `PrimView` when it is a primitive command. -/
def primView : RecipientCommand → Option PrimView
  | .prim a p pos => some ⟨a, p.category, p.args, pos⟩
  | .group _ _ _ => none

/-! ## Evaluator (trl.ts `evaluateTrl` and friends)

The NationStates API is an oracle: one function per endpoint the evaluator
calls, returning the raw response field the code reads, or an error.  An
`ApiError` carries the optional `responseText` that the filter-primitive catch
handlers inspect; any other rejection is `otherError`.  Evaluation results
carry a trace of the per-id lookups (`getCategory` / `getCensusScore` calls)
that were fired, so that claims about when those lookups happen are statable. -/

deriving instance DecidableEq for Except

/-- A rejection coming out of an API request: an `ApiError` with its optional
`responseText`, or any other error. -/
inductive JsErr where
  | apiError (responseText : Option String)
  | otherError
deriving DecidableEq

/-- Errors thrown by the evaluator itself. -/
inductive EvalError where
  /-- A rethrown API rejection. -/
  | api (e : JsErr)
  /-- `throw new Error("Unexpected action")` — Add on a filter primitive. -/
  | unexpectedAction
  /-- `throw new Error("Unexpected category")`. -/
  | unexpectedCategory
deriving DecidableEq

/-- A per-id directory lookup fired during filter-primitive resolution. -/
inductive Lookup where
  | category (nation : String)
  | census (nation : String) (scale : String)
deriving DecidableEq

/-- `CacheOverrideInfo` (api.ts): per-category cache override flags; `none` is
JavaScript `undefined`, which the `overrideCache = false` default parameters
turn into `false`. -/
structure CacheOverrideInfo where
  overrideRegions : Option Bool := none
  overrideTags : Option Bool := none
  overrideWa : Option Bool := none
  overrideNew : Option Bool := none
  overrideRefounded : Option Bool := none
  overrideCategories : Option Bool := none
  overrideCensus : Option Bool := none
deriving DecidableEq

/-- The NationStates API as an oracle.  Each field models one request shape,
returning exactly the raw datum the evaluator reads from the response. -/
structure NsApiModel where
  /-- `regionRequest(region, ["nations"])`: the colon-separated nation list. -/
  regionNations : String → Bool → Except JsErr String
  /-- `worldRequest(["regionsbytag"], {tags})`: the comma-separated region list. -/
  regionsByTag : String → Bool → Except JsErr String
  /-- WA members request: the comma-separated member list. -/
  waMembers : Bool → Except JsErr String
  /-- WA delegates request: the comma-separated delegate list. -/
  waDelegates : Bool → Except JsErr String
  /-- `worldRequest(["happenings"], {filter: "founding", limit})`: the texts of
  the returned events (`none` limit models a `NaN` count). -/
  happenings : Option Int → Bool → Except JsErr (List String)
  /-- `nationRequest(nation, ["category"])`: the category string. -/
  category : String → Bool → Except JsErr String
  /-- `nationRequest(nation, ["census"], {scale})`: the census score. -/
  censusScore : String → String → Bool → Except JsErr ℚ

/-- An evaluation outcome together with the per-id lookups it fired. -/
abbrev EvalRes (α : Type) := Except EvalError α × List Lookup

/-- `getNations`: the raw arguments mapped through `toId`. -/
def getNations (args : List String) : List String :=
  args.map toId

/-- Split a string field of an API response on a separator character. -/
def splitField (sep : Char) (s : String) : List String :=
  (jsSplit sep s.data).map (fun l => ⟨l⟩)

/-- `getRegions`: for each region, fetch its nation list, split on `":"` and
normalise; concatenate in order.  `Promise.all` rejects with the first
rejection in array order, which `mapM` reproduces. -/
def getRegions (api : NsApiModel) (args : List String) (overrideCache : Bool) :
    Except JsErr (List String) := do
  let nationsInRegions ← args.mapM (fun region =>
    (api.regionNations region overrideCache).map
      (fun raw => (splitField ':' raw).map toId))
  pure nationsInRegions.flatten

/-- `getTags`: fetch the regions bearing the joined tags, then their nations. -/
def getTags (api : NsApiModel) (args : List String) (overrideCache : Bool) :
    Except JsErr (List String) := do
  let raw ← api.regionsByTag (String.intercalate "," args) overrideCache
  getRegions api (splitField ',' raw) overrideCache

/-- `getWorldAssemblyMembers`: split on `","` and normalise. -/
def getWorldAssemblyMembers (api : NsApiModel) (overrideCache : Bool) :
    Except JsErr (List String) :=
  (api.waMembers overrideCache).map (fun raw => (splitField ',' raw).map toId)

/-- `getWorldAssemblyDelegates`: split on `","` and normalise. -/
def getWorldAssemblyDelegates (api : NsApiModel) (overrideCache : Bool) :
    Except JsErr (List String) :=
  (api.waDelegates overrideCache).map (fun raw => (splitField ',' raw).map toId)

/-- The nation-name extraction of `getNewNations` / `getRefoundedNations`:
take the text between the two `"@@"` markers.  Faithful to the JS, including
`indexOf + 2` never being `-1` and `substring` swapping its endpoints when the
closing marker is missing. -/
def extractNation (text : String) : String :=
  let start : Int := (match jsIndexOf text.data ['@', '@'] with
    | none => (-1 : Int)
    | some i => (i : Int)) + 2
  if start ≠ -1 then
    let inner : Int := match jsIndexOf (text.data.drop start.toNat) ['@', '@'] with
      | none => (-1 : Int)
      | some i => (i : Int)
    let stop := start + inner
    if stop ≠ -1 then ⟨jsSubstring text.data start stop⟩
    else ""
  else ""

/-- `getNewNations`: founding happenings whose text mentions `"was founded"`,
with the nation name extracted from between the `@@` markers. -/
def getNewNations (api : NsApiModel) (count : Option Int) (overrideCache : Bool) :
    Except JsErr (List String) :=
  (api.happenings count overrideCache).map (fun events =>
    (((events.filter (fun t => (jsIndexOf t.data "was founded".data).isSome)).map
      extractNation).filter (fun nation => nation ≠ "")))

/-- `getRefoundedNations`: as `getNewNations` but matching `"was refounded"`. -/
def getRefoundedNations (api : NsApiModel) (count : Option Int) (overrideCache : Bool) :
    Except JsErr (List String) :=
  (api.happenings count overrideCache).map (fun events =>
    (((events.filter (fun t => (jsIndexOf t.data "was refounded".data).isSome)).map
      extractNation).filter (fun nation => nation ≠ "")))

/-- `evaluateAction`: how a command's resolved set combines with the running
list.  (The JS `default: throw "Unrecognized action"` branch is unreachable:
`Action` has exactly these three values.) -/
def evaluateAction (action : Action) (nations newNations : List String) :
    List String :=
  match action with
  | .add => nations ++ newNations
  | .remove => nations.filter (fun item => !(newNations.contains item))
  | .limit => nations.filter (fun item => newNations.contains item)

/-- The catch handler of the filter primitives: the error is swallowed (the
nation treated as a non-match) iff it is an `ApiError` whose `responseText` is
truthy (present and non-empty) and whose
`responseText.indexOf('Unknown nation "<nation>".')` is truthy — that is,
anything but `0`, with `-1` (absent!) being truthy. -/
def swallowErr (e : JsErr) (nation : String) : Bool :=
  match e with
  | .apiError (some t) =>
    t ≠ "" && jsIndexOf t.data ("Unknown nation \"" ++ nation ++ "\".").data ≠ some 0
  | _ => false

/-- The action switch at the end of the filter-primitive branch: `Remove` and
`Limit` are handled, everything else (i.e. `Add`) hits
`default: throw new Error("Unexpected action")`. -/
def filterActionSwitch (action : Action) (nations newNations : List String) :
    Except EvalError (List String) :=
  match action with
  | .remove => .ok (nations.filter (fun item => !(newNations.contains item)))
  | .limit => .ok newNations
  | .add => .error .unexpectedAction

/-- `Promise.all` over per-nation lookup outcomes: the first rejection in
array order, or the array of fulfilled values. -/
def promiseAll (results : List (Except JsErr String)) : Except JsErr (List String) :=
  results.mapM id

/-- The per-nation outcomes of the `categories` branch: look up each nation of
the running list, keep it when its category is among the arguments, map it to
`""` otherwise, with the catch handler applied to rejections. -/
def categoriesResults (api : NsApiModel) (args : List String)
    (nations : List String) (overrideCache : Bool) : List (Except JsErr String) :=
  nations.map (fun nation =>
    match api.category nation overrideCache with
    | .ok category => .ok (if args.contains category then nation else "")
    | .error err => if swallowErr err nation then .ok "" else .error err)

/-- The per-nation outcomes of the `census` branch: look up each nation's
score on the requested scale and keep the nation when the score lies within
the parsed bounds (a `NaN` bound fails both comparisons). -/
def censusResults (api : NsApiModel) (args : List String)
    (nations : List String) (overrideCache : Bool) : List (Except JsErr String) :=
  let scale := args.headD ""
  let lo := jsParseFloat (args.getD 1 "").data
  let hi := jsParseFloat (args.getD 2 "").data
  nations.map (fun nation =>
    match api.censusScore nation scale overrideCache with
    | .ok score =>
      .ok (if (match lo with | some l => decide (l ≤ score) | none => false) &&
             (match hi with | some h => decide (score ≤ h) | none => false)
        then nation else "")
    | .error err => if swallowErr err nation then .ok "" else .error err)

/-- The tail of both filter branches: join the per-nation promises, drop the
`""` non-matches, and run the Remove/Limit-only action switch. -/
def filterOutcome (action : Action) (nations : List String)
    (results : List (Except JsErr String)) (lookups : List Lookup) :
    EvalRes (List String) :=
  match promiseAll results with
  | .error e => (.error (.api e), lookups)
  | .ok newNations =>
    (filterActionSwitch action nations (newNations.filter (fun nation => nation ≠ "")),
      lookups)

/-- `evaluatePrimitive`.  Direct categories resolve independently and feed
`evaluateAction`; the filter categories `categories`/`census` test each nation
already in the running list (firing one per-id lookup each, all launched by
`Promise.all`), then run the Remove/Limit-only action switch.  The two
`default: throw new Error("Unexpected category")` branches of the JS collapse
into the final catch-all. -/
def evaluatePrimitive (api : NsApiModel) (primitive : RecipientPrimitive)
    (action : Action) (nations : List String) (info : CacheOverrideInfo) :
    EvalRes (List String) :=
  match primitive.category with
  | "nations" =>
    (.ok (evaluateAction action nations (getNations primitive.args)), [])
  | "regions" =>
    match getRegions api primitive.args (info.overrideRegions.getD false) with
    | .error e => (.error (.api e), [])
    | .ok newNations => (.ok (evaluateAction action nations newNations), [])
  | "tags" =>
    match getTags api primitive.args (info.overrideTags.getD false) with
    | .error e => (.error (.api e), [])
    | .ok newNations => (.ok (evaluateAction action nations newNations), [])
  | "wa" =>
    match (if primitive.args.headD "" = "members" then
        getWorldAssemblyMembers api (info.overrideWa.getD false)
      else
        getWorldAssemblyDelegates api (info.overrideWa.getD false)) with
    | .error e => (.error (.api e), [])
    | .ok newNations => (.ok (evaluateAction action nations newNations), [])
  | "new" =>
    match getNewNations api (jsParseInt (primitive.args.headD "").data)
        (info.overrideNew.getD false) with
    | .error e => (.error (.api e), [])
    | .ok newNations => (.ok (evaluateAction action nations newNations), [])
  | "refounded" =>
    match getRefoundedNations api (jsParseInt (primitive.args.headD "").data)
        (info.overrideRefounded.getD false) with
    | .error e => (.error (.api e), [])
    | .ok newNations => (.ok (evaluateAction action nations newNations), [])
  | "categories" =>
    filterOutcome action nations
      (categoriesResults api primitive.args nations (info.overrideCategories.getD false))
      (nations.map Lookup.category)
  | "census" =>
    filterOutcome action nations
      (censusResults api primitive.args nations (info.overrideCensus.getD false))
      (nations.map (fun nation => Lookup.census nation (primitive.args.headD "")))
  | _ => (.error .unexpectedCategory, [])

mutual

/-- `evaluateCommand`: nested groups evaluate from scratch and combine through
`evaluateAction`; primitives go to `evaluatePrimitive`. -/
def evaluateCommand (api : NsApiModel) (command : RecipientCommand)
    (nations : List String) (info : CacheOverrideInfo) : EvalRes (List String) :=
  match command with
  | .group action commands _ =>
    match evaluateGroupAux api commands [] info with
    | (.error e, l) => (.error e, l)
    | (.ok newNations, l) => (.ok (evaluateAction action nations newNations), l)
  | .prim action primitive _ =>
    evaluatePrimitive api primitive action nations info
termination_by structural command

/-- The promise chain of `evaluateGroup`: fold the commands left to right,
threading the running nation list. -/
def evaluateGroupAux (api : NsApiModel) (commands : List RecipientCommand)
    (nations : List String) (info : CacheOverrideInfo) : EvalRes (List String) :=
  match commands with
  | [] => (.ok nations, [])
  | c :: rest =>
    match evaluateCommand api c nations info with
    | (.error e, l) => (.error e, l)
    | (.ok nations', l) =>
      match evaluateGroupAux api rest nations' info with
      | (r, l') => (r, l ++ l')
termination_by structural commands

end

/-- `evaluateGroup`: fold the sibling commands starting from the empty list. -/
def evaluateGroup (api : NsApiModel) (commands : List RecipientCommand)
    (info : CacheOverrideInfo) : EvalRes (List String) :=
  evaluateGroupAux api commands [] info

/-- The final dedup pass of `evaluateTrl`:
`nations.filter((nation, index) => nations.indexOf(nation) === index)`. -/
def dedupJs (nations : List String) : List String :=
  (nations.enum.filter (fun p => nations.indexOf p.2 = p.1)).map Prod.snd

/-- `evaluateTrl`: evaluate the outer group, then the single dedup pass. -/
def evaluateTrl (api : NsApiModel) (commands : List RecipientCommand)
    (info : CacheOverrideInfo) : EvalRes (List String) :=
  match evaluateGroup api commands info with
  | (.ok nations, l) => (.ok (dedupJs nations), l)
  | (.error e, l) => (.error e, l)

/-- A whole-query failure: a parse error or an evaluation error. -/
inductive TrlError where
  | parse (e : ParseError)
  | eval (e : EvalError)
deriving DecidableEq

/-- `getRecipients`: parse then evaluate. -/
def getRecipients (api : NsApiModel) (trl : String) (info : CacheOverrideInfo) :
    Except TrlError (List String) × List Lookup :=
  match parseTrl trl with
  | .error e => (.error (.parse e), [])
  | .ok commands =>
    match evaluateTrl api commands info with
    | (.ok nations, l) => (.ok nations, l)
    | (.error e, l) => (.error (.eval e), l)

/-! ## Telegram job dispatcher (api.ts `NsTgApi`)

The class state becomes an explicit record.  JavaScript recipient objects are
identified by a generated `rid`; the dispatch queue and the jobs' recipient
lists hold rids.  The zero-delay `setInterval` dispatch tick, the asynchronous
resolution of an initiated send (`sendTelegramWithCallbacks`'s `.then` /
`.catch` firing `recipientSuccess` / `recipientFailure`), the refresh tick and
the public methods each become one labelled transition.  `inFlight` records
the recipients whose send has been initiated by a tick but has not yet
resolved — the "currently dispatching" recipients; it is bookkeeping for
stating claims, invisible to the transition functions' branching.  Each
recipient also carries `writes`, the number of times any path assigned its
`status.success`. -/

/-- The error recorded in a recipient's `status.err`. -/
inductive SendError where
  /-- `new Error("Job cancelled")` (from `cancelJob`). -/
  | cancelled
  /-- `new Error("API queue cleared")` (from `clearQueue`). -/
  | cleared
  /-- A failure of the send itself (eligibility check or telegram request). -/
  | sendFailed
deriving DecidableEq

/-- A `Recipient` together with its mutable status.  `success = none` is the
pending state; `writes` counts assignments to `status.success`. -/
structure Rec where
  rid : Nat
  nation : String
  jobId : Nat
  success : Option Bool
  errTag : Option SendError
  writes : Nat
deriving DecidableEq

/-- A `TelegramJob` (the fields the lifecycle reads: the `refresh` flag and
the mutable status, plus the recipient list). -/
structure Job where
  jid : Nat
  refresh : Bool
  isStarted : Bool
  isComplete : Bool
  recipients : List Nat
deriving DecidableEq

/-- The state of an `NsTgApi` instance. -/
structure ApiState where
  recs : List Rec
  jobs : List Job
  queue : List Nat
  inFlight : List Nat
  tgInProgress : Bool
  blockExisting : Bool
  blockNew : Bool
  cleaned : Bool
  jobIdCounter : Nat
  ridCounter : Nat
deriving DecidableEq

/-- The state right after the constructor runs. -/
def initState : ApiState :=
  ⟨[], [], [], [], false, false, false, false, 1, 0⟩

/-- Look up a recipient by identity. -/
def getRec (st : ApiState) (rid : Nat) : Option Rec :=
  st.recs.find? (fun r => r.rid == rid)

/-- `getJob`. -/
def getJob (st : ApiState) (jid : Nat) : Option Job :=
  st.jobs.find? (fun j => j.jid == jid)

/-- Mutate the recipient object identified by `rid`. -/
def updateRec (recs : List Rec) (rid : Nat) (f : Rec → Rec) : List Rec :=
  recs.map (fun r => if r.rid == rid then f r else r)

/-- Mutate the job object identified by `jid`. -/
def updateJob (jobs : List Job) (jid : Nat) (f : Job → Job) : List Job :=
  jobs.map (fun j => if j.jid == jid then f j else j)

/-- `jobComplete` (checked after every recipient resolution): a non-refresh
job whose recipients are all resolved is marked complete. -/
def jobCompleteFn (st : ApiState) (jid : Nat) : ApiState :=
  match getJob st jid with
  | none => st
  | some job =>
    if job.refresh then st
    else if job.recipients.all
        (fun rid => ((getRec st rid).map (fun r => r.success.isSome)).getD false) then
      { st with jobs := updateJob st.jobs jid (fun j => { j with isComplete := true }) }
    else st

/-- The status write `recipient.status.success = true` (the `err` field is
left as it was). -/
def successWrite (r : Rec) : Rec :=
  { r with success := some true, writes := r.writes + 1 }

/-- The status write `success = false; err = e`. -/
def failWrite (e : SendError) (r : Rec) : Rec :=
  { r with success := some false, errTag := some e, writes := r.writes + 1 }

/-- `recipientSuccess`: clear the in-progress flag, write `success = true`
(unconditionally — the status may already be resolved), then re-check job
completion. -/
def recipientSuccessFn (st : ApiState) (rid : Nat) : ApiState :=
  let st := { st with
    tgInProgress := false,
    recs := updateRec st.recs rid successWrite }
  match getRec st rid with
  | some r => jobCompleteFn st r.jobId
  | none => st

/-- `recipientFailure`: clear the in-progress flag, write `success = false`
and the error (unconditionally), then re-check job completion. -/
def recipientFailureFn (st : ApiState) (rid : Nat) (e : SendError) : ApiState :=
  let st := { st with
    tgInProgress := false,
    recs := updateRec st.recs rid (failWrite e) }
  match getRec st rid with
  | some r => jobCompleteFn st r.jobId
  | none => st

/-- The dispatch tick body once its guard passes: shift the queue head, raise
the in-progress flag and initiate the send (which immediately marks the job
started; the owning job always exists since jobs are never deleted). -/
def tickFn (st : ApiState) : ApiState :=
  match st.queue with
  | [] => st
  | rid :: rest =>
    let st := { st with
      queue := rest, tgInProgress := true, inFlight := st.inFlight ++ [rid] }
    match getRec st rid with
    | none => st
    | some r =>
      { st with jobs := updateJob st.jobs r.jobId (fun j => { j with isStarted := true }) }

/-- The resolution of an initiated send that succeeded: the recipient leaves
the in-flight set and `recipientSuccess` runs. -/
def sendSuccessFn (st : ApiState) (rid : Nat) : ApiState :=
  recipientSuccessFn { st with inFlight := st.inFlight.erase rid } rid

/-- The resolution of an initiated send that failed. -/
def sendFailureFn (st : ApiState) (rid : Nat) : ApiState :=
  recipientFailureFn { st with inFlight := st.inFlight.erase rid } rid .sendFailed

/-- One iteration of `cancelJob`'s loop over the job's recipients: a recipient
whose status is still pending is failed with the Cancelled error and removed
from the dispatch queue if still present. -/
def cancelStep (st : ApiState) (rid : Nat) : ApiState :=
  match getRec st rid with
  | none => st
  | some r =>
    if r.success = none then
      { st with
        recs := updateRec st.recs rid (failWrite .cancelled),
        queue := st.queue.erase rid }
    else st

/-- `cancelJob`'s loop. -/
def cancelLoop (st : ApiState) (rids : List Nat) : ApiState :=
  rids.foldl cancelStep st

/-- `cancelJob`: if the job exists, run the loop over its recipients, then set
`job.status.isComplete = true` unconditionally. -/
def cancelJobFn (st : ApiState) (jid : Nat) : ApiState :=
  match getJob st jid with
  | none => st
  | some job =>
    let st := cancelLoop st job.recipients
    { st with jobs := updateJob st.jobs jid (fun j => { j with isComplete := true }) }

/-- `clearQueue`'s `while` loop: pop recipients from the END of the queue and
fail each through `recipientFailure` — which also clears the in-progress flag,
although the popped recipient was never in flight. -/
def clearLoop : Nat → ApiState → ApiState
  | 0, st => st
  | n + 1, st =>
    match st.queue.getLast? with
    | none => st
    | some rid =>
      clearLoop n (recipientFailureFn { st with queue := st.queue.dropLast } rid .cleared)

/-- `clearQueue`. -/
def clearQueueFn (st : ApiState) : ApiState :=
  clearLoop st.queue.length st

/-- `cleanup`: stop both intervals, clear the queue, and mark the instance so
that later submissions fail. -/
def cleanupFn (st : ApiState) : ApiState :=
  { clearQueueFn st with cleaned := true }

/-- The error thrown by `sendTelegramsTrl` / `createJob`. -/
inductive SubmitError where
  /-- `new Error("New telegram requests are being blocked")`. -/
  | blocked
  /-- `new Error("API is shut down")`. -/
  | shutdown
  /-- `new Error("No recipients in job")`. -/
  | noRecipients
deriving DecidableEq

/-- The fresh recipient records `createJob` builds from the resolved nations
(status pending, `{}`). -/
def buildRecs (nations : List String) (jid baseRid : Nat) : List Rec :=
  nations.enum.map (fun p => ⟨baseRid + p.1, p.2, jid, none, none, 0⟩)

/-- `sendTelegramsTrl` with the query already resolved to `nations`:
reject when blocked or shut down; `createJob` allocates the next job id
(incrementing the counter even on failure), throws No-Recipients when the
list is empty and `refresh` is false, and otherwise the job is registered and
its recipients pushed onto the queue. -/
def submitFn (st : ApiState) (nations : List String) (refresh : Bool) :
    ApiState × Except SubmitError Nat :=
  if st.blockNew then (st, .error .blocked)
  else if st.cleaned then (st, .error .shutdown)
  else
    let jid := st.jobIdCounter
    let st := { st with jobIdCounter := jid + 1 }
    let newRecs := buildRecs nations jid st.ridCounter
    if newRecs.length = 0 ∧ refresh = false then (st, .error .noRecipients)
    else
      ({ st with
          recs := st.recs ++ newRecs,
          jobs := st.jobs ++ [⟨jid, refresh, false, false, newRecs.map Rec.rid⟩],
          queue := st.queue ++ newRecs.map Rec.rid,
          ridCounter := st.ridCounter + newRecs.length }, .ok jid)

/-- One job's work inside the refresh tick, with the re-evaluated nation list
given: keep the nations not already among the job's recipients, build fresh
pending recipients for them, and append them to the job and to the queue. -/
def refreshFn (st : ApiState) (jid : Nat) (nations : List String) : ApiState :=
  match getJob st jid with
  | none => st
  | some job =>
    let fresh := nations.filter (fun nation =>
      !(job.recipients.any (fun rid =>
        ((getRec st rid).map (fun r => r.nation == nation)).getD false)))
    let newRecs := buildRecs fresh jid st.ridCounter
    { st with
      recs := st.recs ++ newRecs,
      jobs := updateJob st.jobs jid
        (fun j => { j with recipients := j.recipients ++ newRecs.map Rec.rid }),
      queue := st.queue ++ newRecs.map Rec.rid,
      ridCounter := st.ridCounter + newRecs.length }

/-- The label of a transition. -/
inductive Label where
  | tick
  | sendSuccess (rid : Nat)
  | sendFailure (rid : Nat)
  | submit (nations : List String) (refresh : Bool)
  | refreshJob (jid : Nat) (nations : List String)
  | cancel (jid : Nat)
  | clearTgQueue
  | cleanup
  | setBlockExisting (b : Bool)
  | setBlockNew (b : Bool)
deriving DecidableEq

/-- The transition relation of the dispatcher. -/
inductive Step : ApiState → Label → ApiState → Prop where
  /-- A dispatch-timer firing whose guard passes (a firing whose guard fails
  changes nothing).  The interval exists only until `cleanup`. -/
  | tick (st : ApiState) (h1 : st.tgInProgress = false) (h2 : st.queue ≠ [])
      (h3 : st.blockExisting = false) (h4 : st.cleaned = false) :
      Step st .tick (tickFn st)
  /-- An initiated send resolves successfully. -/
  | sendSuccess (st : ApiState) (rid : Nat) (h : rid ∈ st.inFlight) :
      Step st (.sendSuccess rid) (sendSuccessFn st rid)
  /-- An initiated send resolves with a failure. -/
  | sendFailure (st : ApiState) (rid : Nat) (h : rid ∈ st.inFlight) :
      Step st (.sendFailure rid) (sendFailureFn st rid)
  /-- A `sendTelegramsTrl` call whose query resolved to `nations`. -/
  | submit (st : ApiState) (nations : List String) (refresh : Bool) :
      Step st (.submit nations refresh) (submitFn st nations refresh).1
  /-- A refresh-timer firing re-evaluating one refreshing, incomplete job. -/
  | refreshJob (st : ApiState) (jid : Nat) (nations : List String) (job : Job)
      (h1 : st.blockNew = false) (h2 : st.cleaned = false)
      (h3 : getJob st jid = some job) (h4 : job.refresh = true)
      (h5 : job.isComplete = false) :
      Step st (.refreshJob jid nations) (refreshFn st jid nations)
  /-- A `cancelJob` call. -/
  | cancel (st : ApiState) (jid : Nat) :
      Step st (.cancel jid) (cancelJobFn st jid)
  /-- A `clearQueue` call. -/
  | clearTgQueue (st : ApiState) :
      Step st .clearTgQueue (clearQueueFn st)
  /-- A `cleanup` call. -/
  | cleanup (st : ApiState) :
      Step st .cleanup (cleanupFn st)
  /-- The `blockExistingTelegrams` setter. -/
  | setBlockExisting (st : ApiState) (b : Bool) :
      Step st (.setBlockExisting b) { st with blockExisting := b }
  /-- The `blockNewTelegrams` setter. -/
  | setBlockNew (st : ApiState) (b : Bool) :
      Step st (.setBlockNew b) { st with blockNew := b }

/-- The states an `NsTgApi` instance can reach. -/
inductive Reachable : ApiState → Prop where
  | init : Reachable initState
  | step {st st' : ApiState} {l : Label} :
      Reachable st → Step st l st' → Reachable st'

/-! ## Concrete oracles used to exercise the evaluator -/

/-- A directory that answers every request with a fixed benign value. -/
def trivApi : NsApiModel where
  regionNations := fun _ _ => .ok ""
  regionsByTag := fun _ _ => .ok ""
  waMembers := fun _ => .ok ""
  waDelegates := fun _ => .ok ""
  happenings := fun _ _ => .ok []
  category := fun _ _ => .ok "Anarchy"
  censusScore := fun _ _ _ => .ok 5

/-- All cache-override flags left `undefined`. -/
def defaultInfo : CacheOverrideInfo := {}

/-- A directory whose per-nation category lookup rejects with an `ApiError`
whose response text is unrelated to the unknown-nation message. -/
def unrelatedErrApi : NsApiModel :=
  { trivApi with category := fun _ _ => .error (.apiError (some "Internal server error")) }

/-- A directory whose per-nation category lookup rejects with an `ApiError`
whose response text is exactly the unknown-nation message for that nation. -/
def unknownNationApi : NsApiModel :=
  { trivApi with
    category := fun nation _ =>
      .error (.apiError (some ("Unknown nation \"" ++ nation ++ "\"."))) }

/-- A dispatcher state with one continuous job (id 1) holding a pending queued
recipient (rid 0) and an already-resolved recipient (rid 1), used to exercise
`cancelJob`. -/
def cancelExampleState : ApiState :=
  { recs := [⟨0, "a", 1, none, none, 0⟩, ⟨1, "b", 1, some true, none, 1⟩],
    jobs := [⟨1, true, true, false, [0, 1]⟩],
    queue := [0],
    inFlight := [],
    tgInProgress := false,
    blockExisting := false,
    blockNew := false,
    cleaned := false,
    jobIdCounter := 2,
    ridCounter := 2 }

/-- A dispatcher state with a single in-flight recipient (rid 0) whose status
was already finalised by cancellation, used to exercise the late resolution of
its send. -/
def lateSendState : ApiState :=
  { recs := [⟨0, "a", 1, some false, some .cancelled, 1⟩],
    jobs := [⟨1, false, true, true, [0]⟩],
    queue := [],
    inFlight := [0],
    tgInProgress := true,
    blockExisting := false,
    blockNew := false,
    cleaned := false,
    jobIdCounter := 2,
    ridCounter := 1 }

/-! ## Properties of the final dedup pass -/

theorem dedupJs_sublist (l : List String) : List.Sublist (dedupJs l) l := by
  have h : List.Sublist ((l.enum.filter (fun p => l.indexOf p.2 = p.1)).map Prod.snd)
      (l.enum.map Prod.snd) :=
    (List.filter_sublist _).map Prod.snd
  rwa [List.enum_map_snd] at h

theorem mem_dedupJs {l : List String} {a : String} : a ∈ dedupJs l ↔ a ∈ l := by
  constructor
  · exact fun h => (dedupJs_sublist l).mem h
  · intro h
    have h1 : ((l.indexOf a : ℕ), a) ∈ l.enum := by
      rw [List.mk_mem_enum_iff_getElem?]
      exact List.getElem?_indexOf h
    have h2 : ((l.indexOf a : ℕ), a) ∈
        l.enum.filter (fun p => l.indexOf p.2 = p.1) := by
      rw [List.mem_filter]
      exact ⟨h1, by simp⟩
    exact List.mem_map_of_mem Prod.snd h2

theorem dedupJs_pairwise (l : List String) :
    (dedupJs l).Pairwise (fun a b => l.indexOf a < l.indexOf b) := by
  have henum : l.enum.Pairwise (fun p q : ℕ × String => p.1 < q.1) := by
    have hfst : (l.enum.map Prod.fst).Pairwise (· < ·) := by
      rw [List.enum_map_fst]
      exact List.pairwise_lt_range _
    exact (List.pairwise_map.mp hfst)
  have hfilt : (l.enum.filter (fun p => l.indexOf p.2 = p.1)).Pairwise
      (fun p q : ℕ × String => p.1 < q.1) :=
    henum.sublist (List.filter_sublist _)
  have hkey : ∀ p ∈ l.enum.filter (fun p => l.indexOf p.2 = p.1),
      l.indexOf p.2 = p.1 := by
    intro p hp
    have := (List.mem_filter.mp hp).2
    exact of_decide_eq_true this
  have hfilt2 : (l.enum.filter (fun p => l.indexOf p.2 = p.1)).Pairwise
      (fun p q : ℕ × String => l.indexOf p.2 < l.indexOf q.2) := by
    refine List.Pairwise.imp_of_mem ?_ hfilt
    intro p q hp hq hlt
    rw [hkey p hp, hkey q hq]
    exact hlt
  exact List.pairwise_map.mpr hfilt2

theorem dedupJs_nodup (l : List String) : (dedupJs l).Nodup := by
  refine (dedupJs_pairwise l).imp ?_
  intro a b hlt he
  rw [he] at hlt
  exact lt_irrefl _ hlt

/-! ## Claims about the evaluator -/

/-- Claim C1: for every valid query, the list returned by `evaluate` contains
no duplicate identifiers and lists identifiers in the order of their first
occurrence in the left-to-right fold — the top-level evaluation is the group
evaluation followed by a single stable first-occurrence dedup pass. -/
theorem c1_evaluate_nodup_first_occurrence_order
    (api : NsApiModel) (commands : List RecipientCommand) (info : CacheOverrideInfo)
    (g : List String) (lg : List Lookup)
    (h : evaluateGroup api commands info = (.ok g, lg)) :
    evaluateTrl api commands info = (.ok (dedupJs g), lg) ∧
    (dedupJs g).Nodup ∧
    List.Sublist (dedupJs g) g ∧
    (∀ a, a ∈ dedupJs g ↔ a ∈ g) ∧
    (dedupJs g).Pairwise (fun a b => g.indexOf a < g.indexOf b) := by
  refine ⟨?_, dedupJs_nodup g, dedupJs_sublist g, fun a => mem_dedupJs, dedupJs_pairwise g⟩
  rw [evaluateTrl, h]

theorem c1_evaluate_nodup_first_occurrence_order_witness :
    evaluateTrl trivApi [RecipientCommand.prim .add ⟨"nations", ["A", "a", "B"]⟩ [1]]
      defaultInfo = (.ok (dedupJs ["a", "a", "b"]), []) :=
  (c1_evaluate_nodup_first_occurrence_order trivApi
    [RecipientCommand.prim .add ⟨"nations", ["A", "a", "B"]⟩ [1]]
    defaultInfo ["a", "a", "b"] [] (by decide)).1

/-- Claim C2: `evaluateGroup` folds its sibling commands left-to-right from
the empty list; each command's resolved set combines with the running list
through its action: Add concatenates (duplicates permitted mid-fold), Remove
keeps exactly the running-list items absent from the resolved set, Limit keeps
exactly the running-list items present in it, both preserving the running
list's order (they are sublists of it). -/
theorem c2_group_fold_and_action_semantics
    (api : NsApiModel) (info : CacheOverrideInfo) (a : Action)
    (sub : List RecipientCommand) (pos : List Nat)
    (ns new : List String) (lg : List Lookup)
    (h : evaluateGroup api sub info = (.ok new, lg)) :
    evaluateCommand api (.group a sub pos) ns info
      = (.ok (evaluateAction a ns new), lg) ∧
    (∀ commands, evaluateGroup api commands info = evaluateGroupAux api commands [] info) ∧
    evaluateAction .add ns new = ns ++ new ∧
    evaluateAction .remove ns new = ns.filter (fun item => !(new.contains item)) ∧
    evaluateAction .limit ns new = ns.filter (fun item => new.contains item) ∧
    List.Sublist (evaluateAction .remove ns new) ns ∧
    List.Sublist (evaluateAction .limit ns new) ns ∧
    (∀ x, x ∈ evaluateAction .remove ns new ↔ x ∈ ns ∧ x ∉ new) ∧
    (∀ x, x ∈ evaluateAction .limit ns new ↔ x ∈ ns ∧ x ∈ new) := by
  refine ⟨?_, fun _ => rfl, rfl, rfl, rfl,
    List.filter_sublist _, List.filter_sublist _, ?_, ?_⟩
  · have h' : evaluateGroupAux api sub [] info = (.ok new, lg) := h
    unfold evaluateCommand
    rw [h']
  · intro x
    simp [evaluateAction, List.mem_filter]
  · intro x
    simp [evaluateAction, List.mem_filter]

theorem c2_group_fold_and_action_semantics_witness :
    evaluateCommand trivApi
      (.group .remove [RecipientCommand.prim .add ⟨"nations", ["B"]⟩ [2, 1]] [2])
      ["a", "b"] defaultInfo
      = (.ok (evaluateAction .remove ["a", "b"] ["b"]), []) :=
  (c2_group_fold_and_action_semantics trivApi defaultInfo .remove
    [RecipientCommand.prim .add ⟨"nations", ["B"]⟩ [2, 1]] [2]
    ["a", "b"] ["b"] [] (by decide)).1

/-- Claim C3 (the code's behaviour at the failing input): identifiers are
normalised by `toId`, which lower-cases and trims but — because JavaScript's
`String.replace` with a string pattern replaces only the first occurrence —
converts only the FIRST space to an underscore, contradicting both the claim
and `toId`'s own doc comment ("with spaces replaced with underscores"): the
nation name `"a b c"` evaluates to the id `"a_b c"`, which still contains a
space.  The claim's concrete example does hold. -/
theorem c3_normalization_first_space_only :
    getRecipients trivApi "nations [A, B]; -nations [B];" defaultInfo = (.ok ["a"], []) ∧
    toId "a b c" = "a_b c" ∧
    getRecipients trivApi "nations [a b c];" defaultInfo = (.ok ["a_b c"], []) ∧
    toId "a b c" ≠ "a_b_c" :=
  ⟨by decide, by decide, by decide, by decide⟩

/-- Claim C4 (the code's behaviour at the failing inputs): the filter-primitive
catch handler tests `err.responseText.indexOf("Unknown nation \"<id>\".")` for
truthiness instead of `!== -1`, so a per-id lookup failure is swallowed
exactly when the response text is non-empty and the pattern is NOT at index 0:
an unrelated error text is swallowed (evaluation succeeds), while a response
that is exactly the unknown-nation message aborts the whole evaluation —
nearly the opposite of the claim. -/
theorem c4_swallow_condition_inverted :
    getRecipients unrelatedErrApi "nations [a]; /categories [x];" defaultInfo
      = (.ok [], [.category "a"]) ∧
    getRecipients unknownNationApi "nations [a]; /categories [x];" defaultInfo
      = (.error (.eval (.api (.apiError (some "Unknown nation \"a\".")))),
         [.category "a"]) :=
  ⟨by decide, by decide⟩

/-- Claim C5, counterexample: with a non-empty running list, an Add-action
census primitive fails with the Unexpected-Action error only AFTER firing the
per-id census lookup for every id in the running list — here the lookup trace
at the failure is non-empty, refuting "fails before performing any per-id
directory lookups". -/
theorem c5_counterexample_lookup_before_failure :
    getRecipients trivApi "nations [a]; census [1,0,10];" defaultInfo
      = (.error (.eval .unexpectedAction), [.census "a" "1"]) ∧
    ([Lookup.census "a" "1"] : List Lookup) ≠ [] :=
  ⟨by decide, by decide⟩

/-- Claim C5 as amended: an Add action (explicit `+` or the default) on a
`categories` or `census` primitive always fails evaluation, but only after the
per-id lookups for every id of the current running list have been fired; when
the running list is empty no lookup occurs, so the query `"census [1,0,10];"`
fails with the Unexpected-Action error having performed no lookups. -/
theorem c5_add_on_filter_fails_after_lookups
    (api : NsApiModel) (info : CacheOverrideInfo) (args ns : List String) :
    (evaluatePrimitive api ⟨"census", args⟩ .add ns info).2
      = ns.map (fun nation => Lookup.census nation (args.headD "")) ∧
    (evaluatePrimitive api ⟨"categories", args⟩ .add ns info).2
      = ns.map Lookup.category ∧
    (∃ e, (evaluatePrimitive api ⟨"census", args⟩ .add ns info).1 = .error e) ∧
    (∃ e, (evaluatePrimitive api ⟨"categories", args⟩ .add ns info).1 = .error e) ∧
    (ns = [] →
      evaluatePrimitive api ⟨"census", args⟩ .add ns info
        = (.error .unexpectedAction, [])) ∧
    getRecipients api "census [1,0,10];" info
      = (.error (.eval .unexpectedAction), []) := by
  have houtcome2 : ∀ (nations : List String) (results : List (Except JsErr String))
      (lookups : List Lookup), (filterOutcome .add nations results lookups).2 = lookups := by
    intro nations results lookups
    rw [filterOutcome]
    cases promiseAll results <;> rfl
  have houtcome1 : ∀ (nations : List String) (results : List (Except JsErr String))
      (lookups : List Lookup),
      ∃ e, (filterOutcome .add nations results lookups).1 = .error e := by
    intro nations results lookups
    rw [filterOutcome]
    cases promiseAll results
    · exact ⟨_, rfl⟩
    · exact ⟨.unexpectedAction, rfl⟩
  refine ⟨houtcome2 _ _ _, houtcome2 _ _ _, houtcome1 _ _ _, houtcome1 _ _ _, ?_, rfl⟩
  rintro rfl
  rfl

theorem c5_add_on_filter_fails_after_lookups_witness :
    evaluatePrimitive trivApi ⟨"census", ["1", "0", "10"]⟩ .add [] defaultInfo
      = (.error .unexpectedAction, []) :=
  (c5_add_on_filter_fails_after_lookups trivApi defaultInfo
    ["1", "0", "10"] []).2.2.2.2.1 rfl

/-- Claim C10: an empty bracket pair is accepted: `"nations [];"` parses to a
single Add command whose primitive has `args = [""]` (JavaScript's
`"".split(",")` is `[""]`), and evaluation returns `[""]` — the one-element
list containing the empty identifier — rather than an empty list or a parse
error. -/
theorem c10_empty_brackets_empty_string_argument :
    (parseTrl "nations [];").map (List.map primView)
      = .ok [some ⟨.add, "nations", [""], [1]⟩] ∧
    getRecipients trivApi "nations [];" defaultInfo = (.ok [""], []) :=
  ⟨by decide, by decide⟩

/-! ## Dispatcher lemmas -/

theorem find?_map_guard {α : Type} (key : α → Nat) (l : List α) (k : Nat) (f : α → α)
    (hf : ∀ x, key (f x) = key x) (k' : Nat) :
    (l.map (fun x => if key x == k then f x else x)).find? (fun x => key x == k')
      = (l.find? (fun x => key x == k')).map (fun x => if key x == k then f x else x) := by
  induction l with
  | nil => rfl
  | cons a l ih =>
    have hkey : key (if key a == k then f a else a) = key a := by
      by_cases h : (key a == k) = true
      · rw [if_pos h]; exact hf a
      · rw [if_neg h]
    by_cases h' : (key a == k') = true
    · have l1 : List.find? (fun x => key x == k')
          ((if (key a == k) = true then f a else a) ::
            List.map (fun x => if (key x == k) = true then f x else x) l)
          = some (if (key a == k) = true then f a else a) :=
        List.find?_cons_of_pos _ (by rw [hkey]; exact h')
      have l2 : List.find? (fun x => key x == k') (a :: l) = some a :=
        List.find?_cons_of_pos _ h'
      rw [List.map_cons, l1, l2]
      rfl
    · have l1 : List.find? (fun x => key x == k')
          ((if (key a == k) = true then f a else a) ::
            List.map (fun x => if (key x == k) = true then f x else x) l)
          = List.find? (fun x => key x == k')
              (List.map (fun x => if (key x == k) = true then f x else x) l) :=
        List.find?_cons_of_neg _ (by rw [hkey]; exact h')
      have l2 : List.find? (fun x => key x == k') (a :: l)
          = List.find? (fun x => key x == k') l :=
        List.find?_cons_of_neg _ h'
      rw [List.map_cons, l1, l2]
      exact ih

theorem find?_updateRec (recs : List Rec) (rid : Nat) (f : Rec → Rec)
    (hf : ∀ r, (f r).rid = r.rid) (rid' : Nat) :
    (updateRec recs rid f).find? (fun r => r.rid == rid')
      = (recs.find? (fun r => r.rid == rid')).map (fun r => if r.rid == rid then f r else r) :=
  find?_map_guard Rec.rid recs rid f hf rid'

theorem find?_updateJob (jobs : List Job) (jid : Nat) (f : Job → Job)
    (hf : ∀ j, (f j).jid = j.jid) (jid' : Nat) :
    (updateJob jobs jid f).find? (fun j => j.jid == jid')
      = (jobs.find? (fun j => j.jid == jid')).map (fun j => if j.jid == jid then f j else j) :=
  find?_map_guard Job.jid jobs jid f hf jid'

theorem getRec_rid {st : ApiState} {rid : Nat} {r : Rec}
    (h : getRec st rid = some r) : r.rid = rid := by
  simpa using List.find?_some h

theorem getJob_jid {st : ApiState} {jid : Nat} {j : Job}
    (h : getJob st jid = some j) : j.jid = jid := by
  simpa using List.find?_some h

theorem find?_updateRec_of_ne (recs : List Rec) (rid : Nat) (f : Rec → Rec)
    (hf : ∀ r, (f r).rid = r.rid) (rid' : Nat) (hne : rid' ≠ rid) :
    (updateRec recs rid f).find? (fun r => r.rid == rid')
      = recs.find? (fun r => r.rid == rid') := by
  rw [find?_updateRec recs rid f hf rid']
  cases h : recs.find? (fun r => r.rid == rid') with
  | none => rfl
  | some a =>
    have ha : a.rid = rid' := by simpa using List.find?_some h
    have hb : (a.rid == rid) = false := by
      rw [ha]; exact beq_eq_false_iff_ne.mpr hne
    simp only [Option.map_some']
    rw [hb]
    simp

theorem jobCompleteFn_recs (st : ApiState) (jid : Nat) :
    (jobCompleteFn st jid).recs = st.recs := by
  unfold jobCompleteFn
  rcases getJob st jid with _ | job
  · rfl
  · dsimp only
    split
    · rfl
    · split <;> rfl

theorem jobCompleteFn_queue (st : ApiState) (jid : Nat) :
    (jobCompleteFn st jid).queue = st.queue := by
  unfold jobCompleteFn
  rcases getJob st jid with _ | job
  · rfl
  · dsimp only
    split
    · rfl
    · split <;> rfl

theorem recipientSuccessFn_recs (st : ApiState) (rid : Nat) :
    (recipientSuccessFn st rid).recs = updateRec st.recs rid successWrite := by
  unfold recipientSuccessFn
  dsimp only
  split
  · exact jobCompleteFn_recs _ _
  · rfl

theorem recipientFailureFn_recs (st : ApiState) (rid : Nat) (e : SendError) :
    (recipientFailureFn st rid e).recs = updateRec st.recs rid (failWrite e) := by
  unfold recipientFailureFn
  dsimp only
  split
  · exact jobCompleteFn_recs _ _
  · rfl

theorem recipientFailureFn_queue (st : ApiState) (rid : Nat) (e : SendError) :
    (recipientFailureFn st rid e).queue = st.queue := by
  unfold recipientFailureFn
  dsimp only
  split
  · exact jobCompleteFn_queue _ _
  · rfl

theorem tickFn_recs (st : ApiState) : (tickFn st).recs = st.recs := by
  unfold tickFn
  split
  · rfl
  · dsimp only
    split <;> rfl

theorem cancelStep_jobs (st : ApiState) (a : Nat) : (cancelStep st a).jobs = st.jobs := by
  unfold cancelStep
  split
  · rfl
  · split <;> rfl

theorem cancelLoop_cons (st : ApiState) (a : Nat) (l : List Nat) :
    cancelLoop st (a :: l) = cancelLoop (cancelStep st a) l := rfl

theorem cancelLoop_jobs (l : List Nat) : ∀ st : ApiState, (cancelLoop st l).jobs = st.jobs := by
  induction l with
  | nil => intro st; rfl
  | cons a l ih =>
    intro st
    rw [cancelLoop_cons, ih, cancelStep_jobs]

theorem getRec_cancelStep_of_ne (st : ApiState) (a rid : Nat) (hne : rid ≠ a) :
    getRec (cancelStep st a) rid = getRec st rid := by
  unfold cancelStep
  split
  · rfl
  · split
    · exact find?_updateRec_of_ne st.recs a (failWrite .cancelled) (fun _ => rfl) rid hne
    · rfl

theorem getRec_cancelStep_self (st : ApiState) (rid : Nat) (r : Rec)
    (h : getRec st rid = some r) (hpend : r.success = none) :
    getRec (cancelStep st rid) rid = some (failWrite .cancelled r) ∧
    (cancelStep st rid).queue = st.queue.erase rid := by
  unfold cancelStep
  rw [h]
  dsimp only
  rw [if_pos hpend]
  refine ⟨?_, rfl⟩
  show (updateRec st.recs rid (failWrite .cancelled)).find? _ = _
  have h' : st.recs.find? (fun x => x.rid == rid) = some r := h
  rw [find?_updateRec st.recs rid (failWrite .cancelled) (fun _ => rfl) rid, h']
  have hb : (r.rid == rid) = true := by simp [getRec_rid h]
  simp only [Option.map_some']
  rw [hb]
  simp

theorem getRec_cancelStep_preserved (st : ApiState) (a rid : Nat) (r : Rec)
    (h : getRec st rid = some r) (hres : r.success.isSome = true) :
    getRec (cancelStep st a) rid = some r := by
  by_cases he : rid = a
  · subst he
    unfold cancelStep
    rw [h]
    dsimp only
    have : ¬(r.success = none) := by
      intro he'; rw [he'] at hres; simp at hres
    rw [if_neg this]
    exact h
  · rw [getRec_cancelStep_of_ne st a rid he]
    exact h

theorem getRec_cancelLoop_resolved (l : List Nat) :
    ∀ (st : ApiState) (rid : Nat) (r : Rec),
      getRec st rid = some r → r.success.isSome = true →
      getRec (cancelLoop st l) rid = some r := by
  induction l with
  | nil => intro st rid r h _; exact h
  | cons a l ih =>
    intro st rid r h hres
    rw [cancelLoop_cons]
    exact ih _ _ _ (getRec_cancelStep_preserved st a rid r h hres) hres

theorem getRec_cancelLoop_pending (l : List Nat) :
    ∀ (st : ApiState) (rid : Nat) (r : Rec),
      rid ∈ l → getRec st rid = some r → r.success = none →
      getRec (cancelLoop st l) rid = some (failWrite .cancelled r) := by
  induction l with
  | nil => intro st rid r hm; exact absurd hm (List.not_mem_nil _)
  | cons a l ih =>
    intro st rid r hm h hpend
    rw [cancelLoop_cons]
    by_cases he : rid = a
    · subst he
      exact getRec_cancelLoop_resolved l _ _ _
        (getRec_cancelStep_self st rid r h hpend).1 rfl
    · rcases List.mem_cons.mp hm with he' | hm'
      · exact absurd he' he
      · exact ih _ _ _ hm' (by rw [getRec_cancelStep_of_ne st a rid he]; exact h) hpend

theorem cancelStep_queue_not_mem (st : ApiState) (a q : Nat) (h : q ∉ st.queue) :
    q ∉ (cancelStep st a).queue := by
  unfold cancelStep
  split
  · exact h
  · split
    · exact fun hm => h (List.mem_of_mem_erase hm)
    · exact h

theorem cancelStep_queue_nodup (st : ApiState) (a : Nat) (h : st.queue.Nodup) :
    (cancelStep st a).queue.Nodup := by
  unfold cancelStep
  split
  · exact h
  · split
    · exact h.erase _
    · exact h

theorem cancelLoop_queue_not_mem (l : List Nat) :
    ∀ (st : ApiState) (q : Nat), q ∉ st.queue → q ∉ (cancelLoop st l).queue := by
  induction l with
  | nil => intro st q h; exact h
  | cons a l ih =>
    intro st q h
    rw [cancelLoop_cons]
    exact ih _ _ (cancelStep_queue_not_mem st a q h)

theorem cancelLoop_queue_pending_removed (l : List Nat) :
    ∀ (st : ApiState) (rid : Nat) (r : Rec),
      st.queue.Nodup → rid ∈ l → getRec st rid = some r → r.success = none →
      rid ∉ (cancelLoop st l).queue := by
  induction l with
  | nil => intro st rid r _ hm; exact absurd hm (List.not_mem_nil _)
  | cons a l ih =>
    intro st rid r hnd hm h hpend
    rw [cancelLoop_cons]
    by_cases he : rid = a
    · subst he
      apply cancelLoop_queue_not_mem
      rw [(getRec_cancelStep_self st rid r h hpend).2]
      exact hnd.not_mem_erase
    · rcases List.mem_cons.mp hm with he' | hm'
      · exact absurd he' he
      · exact ih _ _ _ (cancelStep_queue_nodup st a hnd) hm'
          (by rw [getRec_cancelStep_of_ne st a rid he]; exact h) hpend

theorem find?_append_some {p : Rec → Bool} {l₁ l₂ : List Rec} {a : Rec}
    (h : l₁.find? p = some a) : (l₁ ++ l₂).find? p = some a := by
  rw [List.find?_append, h]
  rfl

theorem getRec_clearLoop_of_ne (n : Nat) :
    ∀ (st : ApiState) (rid : Nat), (∀ q ∈ st.queue, q ≠ rid) →
      getRec (clearLoop n st) rid = getRec st rid := by
  induction n with
  | zero => intro st rid _; rfl
  | succ n ih =>
    intro st rid h
    unfold clearLoop
    split
    · rfl
    · rename_i q0 heq
      have hq0 : q0 ∈ st.queue := List.mem_of_getLast?_eq_some heq
      have hne : rid ≠ q0 := fun he => (h q0 hq0) (by rw [he])
      have h1 : getRec (recipientFailureFn { st with queue := st.queue.dropLast } q0 .cleared) rid
          = getRec st rid := by
        show (recipientFailureFn _ q0 .cleared).recs.find? _ = _
        rw [recipientFailureFn_recs]
        exact find?_updateRec_of_ne st.recs q0 (failWrite .cleared) (fun _ => rfl) rid hne
      have h2 : ∀ q ∈ (recipientFailureFn { st with queue := st.queue.dropLast } q0 .cleared).queue,
          q ≠ rid := by
        intro q hqm
        rw [recipientFailureFn_queue] at hqm
        exact h q ((List.dropLast_sublist st.queue).subset hqm)
      rw [ih _ rid h2, h1]

/-! ## Claims about the dispatcher -/

/-- Claim C6, counterexample: a recipient's `status.success` can be written
twice — submit a job with one recipient, dispatch it, cancel the job while the
send is in flight (first write: failed/Cancelled), then let the send resolve
successfully (`recipientSuccess` writes unconditionally: second write).  This
refutes "every Recipient's status.success is written at most once". -/
theorem c6_counterexample_second_write_after_cancel :
    ∃ st, Reachable st ∧ ∃ r, r ∈ st.recs ∧ ¬(r.writes ≤ 1) := by
  refine ⟨sendSuccessFn (cancelJobFn (tickFn (submitFn initState ["a"] false).1) 1) 0,
    ?_, ⟨0, "a", 1, some true, some .cancelled, 2⟩, by decide, by decide⟩
  exact Reachable.step (Reachable.step (Reachable.step (Reachable.step Reachable.init
    (Step.submit initState ["a"] false))
    (Step.tick _ (by decide) (by decide) (by decide) (by decide)))
    (Step.cancel _ 1))
    (Step.sendSuccess _ 0 (by decide))

/-- Claim C6 as amended: once a recipient's status is resolved, the only
transition that writes it again is the resolution (success or failure) of that
recipient's own in-flight send; the dispatch tick, submissions, the refresh
loop, cancellation, queue clearing, cleanup and the block setters never write
an already-resolved status.  (The hypothesis on the queue — every queued
recipient is still pending — holds in every reachable state: recipients enter
the queue pending and every resolution path removes them from it.) -/
theorem c6_amended_resolved_status_rewritten_only_by_own_send
    (st st' : ApiState) (l : Label) (hstep : Step st l st')
    (hq : ∀ q ∈ st.queue, ∀ rq, getRec st q = some rq → rq.success = none)
    (rid : Nat) (r r' : Rec)
    (h1 : getRec st rid = some r) (h2 : getRec st' rid = some r')
    (hres : r.success.isSome = true) (hw : r'.writes ≠ r.writes) :
    l = .sendSuccess rid ∨ l = .sendFailure rid := by
  cases hstep with
  | tick ht1 ht2 ht3 ht4 =>
    have heq : getRec (tickFn st) rid = getRec st rid := by
      show (tickFn st).recs.find? _ = _
      rw [tickFn_recs]
      rfl
    rw [heq, h1] at h2
    exact absurd (congrArg Rec.writes (Option.some.inj h2)) (Ne.symm hw)
  | sendSuccess rid₀ hmem =>
    by_cases he : rid = rid₀
    · subst he; exact Or.inl rfl
    · have heq : getRec (sendSuccessFn st rid₀) rid = getRec st rid := by
        show (sendSuccessFn st rid₀).recs.find? _ = _
        rw [show (sendSuccessFn st rid₀).recs = updateRec st.recs rid₀ successWrite from
          recipientSuccessFn_recs _ _]
        exact find?_updateRec_of_ne st.recs rid₀ successWrite (fun _ => rfl) rid he
      rw [heq, h1] at h2
      exact absurd (congrArg Rec.writes (Option.some.inj h2)) (Ne.symm hw)
  | sendFailure rid₀ hmem =>
    by_cases he : rid = rid₀
    · subst he; exact Or.inr rfl
    · have heq : getRec (sendFailureFn st rid₀) rid = getRec st rid := by
        show (sendFailureFn st rid₀).recs.find? _ = _
        rw [show (sendFailureFn st rid₀).recs = updateRec st.recs rid₀ (failWrite .sendFailed) from
          recipientFailureFn_recs _ _ _]
        exact find?_updateRec_of_ne st.recs rid₀ (failWrite .sendFailed) (fun _ => rfl) rid he
      rw [heq, h1] at h2
      exact absurd (congrArg Rec.writes (Option.some.inj h2)) (Ne.symm hw)
  | submit nations refresh =>
    have heq : getRec (submitFn st nations refresh).1 rid = some r := by
      unfold submitFn
      split
      · exact h1
      · split
        · exact h1
        · dsimp only
          split
          · exact h1
          · exact find?_append_some h1
    rw [heq] at h2
    exact absurd (congrArg Rec.writes (Option.some.inj h2)) (Ne.symm hw)
  | refreshJob jid nations job hb hc hj hr hcpl =>
    have heq : getRec (refreshFn st jid nations) rid = some r := by
      unfold refreshFn
      split
      · exact h1
      · exact find?_append_some h1
    rw [heq] at h2
    exact absurd (congrArg Rec.writes (Option.some.inj h2)) (Ne.symm hw)
  | cancel jid =>
    have heq : getRec (cancelJobFn st jid) rid = some r := by
      unfold cancelJobFn
      split
      · exact h1
      · exact getRec_cancelLoop_resolved _ _ _ _ h1 hres
    rw [heq] at h2
    exact absurd (congrArg Rec.writes (Option.some.inj h2)) (Ne.symm hw)
  | clearTgQueue =>
    have hne : ∀ q ∈ st.queue, q ≠ rid := by
      intro q hqm he
      subst he
      have := hq q hqm r h1
      rw [this] at hres
      simp at hres
    have heq : getRec (clearQueueFn st) rid = getRec st rid :=
      getRec_clearLoop_of_ne st.queue.length st rid hne
    rw [heq, h1] at h2
    exact absurd (congrArg Rec.writes (Option.some.inj h2)) (Ne.symm hw)
  | cleanup =>
    have hne : ∀ q ∈ st.queue, q ≠ rid := by
      intro q hqm he
      subst he
      have := hq q hqm r h1
      rw [this] at hres
      simp at hres
    have heq : getRec (cleanupFn st) rid = getRec st rid :=
      getRec_clearLoop_of_ne st.queue.length st rid hne
    rw [heq, h1] at h2
    exact absurd (congrArg Rec.writes (Option.some.inj h2)) (Ne.symm hw)
  | setBlockExisting b =>
    rw [show getRec { st with blockExisting := b } rid = getRec st rid from rfl, h1] at h2
    exact absurd (congrArg Rec.writes (Option.some.inj h2)) (Ne.symm hw)
  | setBlockNew b =>
    rw [show getRec { st with blockNew := b } rid = getRec st rid from rfl, h1] at h2
    exact absurd (congrArg Rec.writes (Option.some.inj h2)) (Ne.symm hw)

theorem c6_amended_resolved_status_rewritten_only_by_own_send_witness :
    Label.sendSuccess 0 = Label.sendSuccess 0 ∨ Label.sendSuccess 0 = Label.sendFailure 0 :=
  c6_amended_resolved_status_rewritten_only_by_own_send
    lateSendState (sendSuccessFn lateSendState 0) (.sendSuccess 0)
    (Step.sendSuccess lateSendState 0 (by decide))
    (fun q hqm => absurd hqm (List.not_mem_nil q))
    0 ⟨0, "a", 1, some false, some .cancelled, 1⟩ ⟨0, "a", 1, some true, some .cancelled, 2⟩
    (by decide) (by decide) (by decide) (by decide)

/-- Claim C7: `cancelJob` on an existing job fails every still-pending
recipient of the job with the Cancelled error (one extra status write),
removes each such recipient from the dispatch queue, leaves already-resolved
recipients untouched, and sets `job.status.isComplete = true` unconditionally
— the theorem places no hypothesis on `job.refresh`, so this holds for
continuous jobs too (witness below cancels a continuous job). -/
theorem c7_cancel_fails_pending_removes_from_queue_completes
    (st : ApiState) (jid : Nat) (job : Job)
    (hj : getJob st jid = some job) (hnd : st.queue.Nodup) :
    (∀ rid r, rid ∈ job.recipients → getRec st rid = some r → r.success = none →
      getRec (cancelJobFn st jid) rid = some (failWrite .cancelled r) ∧
      rid ∉ (cancelJobFn st jid).queue) ∧
    (∀ rid r, getRec st rid = some r → r.success.isSome = true →
      getRec (cancelJobFn st jid) rid = some r) ∧
    getJob (cancelJobFn st jid) jid = some { job with isComplete := true } := by
  have hcancel : cancelJobFn st jid
      = { cancelLoop st job.recipients with
          jobs := updateJob (cancelLoop st job.recipients).jobs jid
            (fun j => { j with isComplete := true }) } := by
    unfold cancelJobFn
    rw [hj]
  refine ⟨?_, ?_, ?_⟩
  · intro rid r hm h hpend
    rw [hcancel]
    exact ⟨getRec_cancelLoop_pending job.recipients st rid r hm h hpend,
      cancelLoop_queue_pending_removed job.recipients st rid r hnd hm h hpend⟩
  · intro rid r h hres
    rw [hcancel]
    exact getRec_cancelLoop_resolved job.recipients st rid r h hres
  · rw [hcancel]
    show (updateJob (cancelLoop st job.recipients).jobs jid _).find? _ = _
    rw [cancelLoop_jobs,
      find?_updateJob st.jobs jid (fun j => { j with isComplete := true }) (fun _ => rfl) jid,
      show st.jobs.find? (fun j => j.jid == jid) = some job from hj]
    have hb : (job.jid == jid) = true := by simp [getJob_jid hj]
    simp only [Option.map_some']
    rw [hb]
    simp

theorem c7_cancel_fails_pending_removes_from_queue_completes_witness :
    getRec (cancelJobFn cancelExampleState 1) 0
      = some (failWrite .cancelled ⟨0, "a", 1, none, none, 0⟩) ∧
    (0 ∉ (cancelJobFn cancelExampleState 1).queue) ∧
    getRec (cancelJobFn cancelExampleState 1) 1 = some ⟨1, "b", 1, some true, none, 1⟩ ∧
    getJob (cancelJobFn cancelExampleState 1) 1 = some ⟨1, true, true, true, [0, 1]⟩ := by
  have h := c7_cancel_fails_pending_removes_from_queue_completes cancelExampleState 1
    ⟨1, true, true, false, [0, 1]⟩ (by decide) (by decide)
  have h1 := h.1 0 ⟨0, "a", 1, none, none, 0⟩ (by decide) (by decide) (by decide)
  exact ⟨h1.1, h1.2, h.2.1 1 ⟨1, "b", 1, some true, none, 1⟩ (by decide) (by decide), h.2.2⟩

/-- Claim C8: when submissions are neither blocked nor shut down,
`sendTelegramsTrl` fails with the No-Recipients error exactly when the query
resolved to an empty list and the job is not continuous; the same empty
resolution with `refresh = true` succeeds and registers a job with an empty
recipient list, leaving the queue (and everything but the job table and the
job-id counter) untouched. -/
theorem c8_no_recipients_iff_empty_and_not_continuous
    (st : ApiState) (nations : List String) (refresh : Bool)
    (hb : st.blockNew = false) (hc : st.cleaned = false) :
    ((submitFn st nations refresh).2 = .error .noRecipients ↔
      nations = [] ∧ refresh = false) ∧
    (nations = [] → refresh = true →
      submitFn st nations refresh
        = ({ st with
              jobIdCounter := st.jobIdCounter + 1,
              jobs := st.jobs ++ [⟨st.jobIdCounter, true, false, false, []⟩] },
           .ok st.jobIdCounter)) := by
  constructor
  · have hlen : (buildRecs nations st.jobIdCounter st.ridCounter).length = nations.length := by
      simp [buildRecs]
    unfold submitFn
    rw [hb, hc]
    simp only [Bool.false_eq_true, if_false]
    constructor
    · intro h
      by_cases hcond : (buildRecs nations st.jobIdCounter st.ridCounter).length = 0 ∧
          refresh = false
      · rw [hlen, List.length_eq_zero] at hcond
        exact hcond
      · rw [if_neg hcond] at h
        exact absurd h (by simp)
    · intro h
      rw [if_pos (by rw [hlen, h.1]; exact ⟨rfl, h.2⟩)]
  · intro h1 h2
    subst h1; subst h2
    unfold submitFn
    rw [hb, hc]
    simp [buildRecs]

theorem c8_no_recipients_iff_empty_and_not_continuous_witness :
    ((submitFn initState [] false).2 = .error .noRecipients ↔
      ([] : List String) = [] ∧ false = false) ∧
    submitFn initState [] true
      = ({ initState with
            jobIdCounter := 2,
            jobs := [⟨1, true, false, false, []⟩] },
         .ok 1) :=
  ⟨(c8_no_recipients_iff_empty_and_not_continuous initState [] false rfl rfl).1,
   (c8_no_recipients_iff_empty_and_not_continuous initState [] true rfl rfl).2 rfl rfl⟩

/-- Claim C9 (the code's behaviour at the failing trace): two recipients can
be in flight at once.  `clearQueue` fails queued recipients through
`recipientFailure`, which clears the in-progress flag even though the popped
recipient was never in flight; a subsequent submission and dispatch tick then
start a second send while the first is still unresolved.  The trace: submit a
job with recipients a and b, tick (a in flight, b queued), clearQueue (b
failed, flag cleared), submit a job with recipient c, tick (c in flight) —
reaching a state whose in-flight set has two recipients. -/
theorem c9_two_sends_in_flight_reachable :
    ∃ st, Reachable st ∧ st.inFlight.length = 2 := by
  refine ⟨tickFn (submitFn (clearQueueFn (tickFn (submitFn initState ["a", "b"] false).1))
    ["c"] false).1, ?_, by decide⟩
  exact Reachable.step (Reachable.step (Reachable.step (Reachable.step (Reachable.step
    Reachable.init
    (Step.submit initState ["a", "b"] false))
    (Step.tick _ (by decide) (by decide) (by decide) (by decide)))
    (Step.clearTgQueue _))
    (Step.submit _ ["c"] false))
    (Step.tick _ (by decide) (by decide) (by decide) (by decide))

end Nstg
